import Mathlib

/-!
A shallow embedding of the H-1B statistics program (`src/h1b_counting.py`)
and proofs about its query engine, column resolution, field reconciliation
and report aggregation.

Modelling conventions:
* A loaded record (a Python `dict` produced by `csv.DictReader`) is a
  total map from column name to `Value`.  Every key the program reads is
  a resolved header and is present in every reader row (absent trailing
  fields are filled with `None`), so reading an unset key yields `vnone`;
  no claim depends on a dict's iteration order, so the map model is
  faithful for everything proved here.
* A cell is either `vnone` (Python `None`), a string, or a non-negative
  integer (the only integers arising in the pipeline are counts).
* Python's `cmp`-style comparison `(a > b) - (a < b)` is embedded as
  `pyCmp`.  Comparisons between values of different types raise
  `TypeError` in Python; they are totalised here (`vnone < vint < vstr`)
  and are never exercised by the pipeline, whose columns are homogeneous.
* Fallible Python code (functions that `raise`) returns `Except String`.
-/

namespace H1B

/-- A cell value of a loaded record: Python `None`, an `int`, or a `str`. -/
inductive Value where
  | vnone : Value
  | vint (n : Nat) : Value
  | vstr (s : String) : Value
deriving DecidableEq, Repr

/-- Python's two-argument comparison `cmp(a, b) = (a > b) - (a < b)`
(the helper defined inside `query_load`). -/
def pyCmp {α : Type} [LinearOrder α] (a b : α) : Int :=
  (if a > b then 1 else 0) - (if a < b then 1 else 0)

/-- Comparison of two cell values, as Python's rich comparison on the
homogeneous columns of this pipeline.  Cross-type comparisons (which
raise `TypeError` in Python and are unexercised here) are totalised as
`vnone < vint < vstr`. -/
def cmpV : Value → Value → Int
  | .vnone, .vnone => 0
  | .vnone, _ => -1
  | _, .vnone => 1
  | .vint a, .vint b => pyCmp a b
  | .vstr a, .vstr b => pyCmp a b
  | .vint _, .vstr _ => -1
  | .vstr _, .vint _ => 1

/-- A loaded record: a Python `dict` from (lower-cased) column name to
cell value, modelled as a total map (see the header comment). -/
def Rec : Type := String → Value

/-- `x[k]` on a record. -/
def getVal (r : Rec) (k : String) : Value := r k

/-- `x.update({k: v})` on a record. -/
def updRec (r : Rec) (k : String) (v : Value) : Rec :=
  fun k2 => if k2 = k then v else r k2

/-- `x[fl[0]] is None or x[fl[0]] == ''`: the program's emptiness test. -/
def isEmptyV : Value → Bool
  | .vnone => true
  | .vstr s => s == ""
  | .vint _ => false

/-! ## The query engine (`query_load`) -/

/-- `next((result for result in comparer_iter if result), 0)`:
the first non-zero entry of a list of key-level comparison results. -/
def firstNonzero : List Int → Int
  | [] => 0
  | x :: xs => if x ≠ 0 then x else firstNonzero xs

/-- Python's `str.strip()`: drop leading and trailing whitespace. -/
def pyStrip (s : String) : String :=
  String.mk (((s.data.dropWhile Char.isWhitespace).reverse.dropWhile
    Char.isWhitespace).reverse)

/-- The `comparers` list built inside `query_load`: one
`(stripped column, multiplier)` pair per sort key, multiplier `-1` for
`'Descending'` and `1` otherwise. -/
def mkComparers (sort_keys sort_order : List String) : List (String × Int) :=
  (sort_keys.zip sort_order).map
    (fun co => (pyStrip co.1, if co.2 == "Descending" then -1 else 1))

/-- The `comparer(left, right)` closure of `query_load`: the first
non-zero `cmp(fn(left), fn(right)) * mult`, else `0`. -/
def comparer (cs : List (String × Int)) (left right : Rec) : Int :=
  firstNonzero (cs.map (fun c => cmpV (getVal left c.1) (getVal right c.1) * c.2))

/-- Python's list comparison, used by
`sorted(data, key=lambda r: [r[k] for k in sort_keys])`. -/
def cmpVList : List Value → List Value → Int
  | [], [] => 0
  | [], _ :: _ => -1
  | _ :: _, [] => 1
  | a :: as2, b :: bs => if cmpV a b ≠ 0 then cmpV a b else cmpVList as2 bs

/-- `[r for r in data if filter_expression(r)]` (identity when no
filter expression is supplied). -/
def apply_filter (filter_expression : Option (Rec → Bool)) (data : List Rec) : List Rec :=
  match filter_expression with
  | some f => data.filter f
  | none => data

/-- `{k: v for k, v in i.items() if k in project_keys}` applied to each
record (identity when no projection is supplied).  Keys outside the
projection are unset afterwards. -/
def apply_project (project_keys : Option (List String)) (data : List Rec) : List Rec :=
  match project_keys with
  | some ks => data.map (fun r => fun k => if ks.contains k then r k else Value.vnone)
  | none => data

/-- `query_load`: the generic filter / project / sort engine.  Python's
`sorted` is a stable sort, embedded as `List.mergeSort`; with both
`sort_keys` and `sort_order` it sorts by the `comparer` closure
(through `cmp_to_key`), with `sort_keys` alone it sorts ascending by the
list of key values.  A `sort_order` whose length differs from
`sort_keys` raises `ValueError` (`Except.error`). -/
def query_load (data : List Rec) (filter_expression : Option (Rec → Bool))
    (project_keys : Option (List String))
    (sort_keys : Option (List String))
    (sort_order : Option (List String)) : Except String (List Rec) :=
  let d1 := apply_filter filter_expression data
  let d2 := apply_project project_keys d1
  match sort_keys with
  | some sk =>
    match sort_order with
    | some so =>
      if so.length = sk.length then
        .ok (d2.mergeSort (fun a b => decide (comparer (mkComparers sk so) a b ≤ 0)))
      else
        .error "Length of sort order and sort keys is not same"
    | none =>
      .ok (d2.mergeSort (fun a b =>
        decide (cmpVList (sk.map (getVal a)) (sk.map (getVal b)) ≤ 0)))
  | none => .ok d2

/-! ## Percentages -/

/-- `round(x, 1)` at one decimal place.  Python rounds the binary float
`100*part/whole` with round-half-to-even; the rational embedding uses
Mathlib's `round` (half away from zero at the midpoint).  No claim
depends on the rounded value, only on the zero-denominator error. -/
def round1 (q : Rat) : Rat := (round (q * 10) : Int) / 10

/-- The value `round(float(100) * float(part) / float(whole), 1)`. -/
def pctVal (part whole : Nat) : Rat := round1 ((100 * part : Rat) / whole)

/-- `percentage(part, whole)`: fails when the denominator is zero
(`if not whole: raise ValueError("Denominator cannot be 0")`). -/
def percentage (part whole : Nat) : Except String Rat :=
  if whole = 0 then .error "Denominator cannot be 0"
  else .ok (pctVal part whole)

/-! ## Field reconciliation -/

/-- One iteration of the single-role reconciliation loop:
`final = x[fl[i]] if x[fl[0]] is None or x[fl[0]] == '' else x[fl[0]];
x.update({fl[0]: final})`. -/
def reconcile_step (k0 : String) (acc : Rec) (ki : String) : Rec :=
  updRec acc k0
    (if isEmptyV (getVal acc k0) then getVal acc ki else getVal acc k0)

/-- The inner reconciliation loop `for i in range(1, len(fl))` for one
record and one role. -/
def reconcile_rec (fl : List String) (x : Rec) : Rec :=
  match fl with
  | [] => x
  | k0 :: rest => rest.foldl (reconcile_step k0) x

/-- Single-role reconciliation over the whole record store, guarded by
`if len(fl) > 1` exactly as in the source. -/
def reconcile_field (fl : List String) (data : List Rec) : List Rec :=
  if fl.length > 1 then data.map (reconcile_rec fl) else data

/-- One iteration of the joint occupation-code / occupation-name
reconciliation loop: when the primary code is empty, both the code and
the name are copied from position `i` (`p = (code_fl[i], name_fl[i])`),
reading both before writing. -/
def reconcile_occ_step (c0 n0 : String) (acc : Rec) (p : String × String) : Rec :=
  if isEmptyV (getVal acc c0) then
    updRec (updRec acc c0 (getVal acc p.1)) n0 (getVal acc p.2)
  else acc

/-- The joint occupation reconciliation loop for one record.  The Python
loop indexes both lists by the same `i`; `main` guarantees the two lists
have equal length, which the theorems assume where it matters. -/
def reconcile_occ_rec (soc_name_fl soc_code_fl : List String) (x : Rec) : Rec :=
  match soc_code_fl, soc_name_fl with
  | c0 :: crest, n0 :: nrest => (crest.zip nrest).foldl (reconcile_occ_step c0 n0) x
  | _, _ => x

/-- Joint occupation reconciliation over the record store, guarded by
`if len(soc_code_field_list) > 1`. -/
def reconcile_occ_fields (soc_name_fl soc_code_fl : List String) (data : List Rec) :
    List Rec :=
  if soc_code_fl.length > 1 then data.map (reconcile_occ_rec soc_name_fl soc_code_fl)
  else data

/-! ## Grouping (`itertools.groupby`) -/

/-- `itertools.groupby`: split a list into maximal runs of consecutive
elements whose keys agree with the run's first element. -/
def groupRuns {α : Type} (eq : α → α → Bool) : List α → List (List α)
  | [] => []
  | a :: l => (a :: l.takeWhile (eq a)) :: groupRuns eq (l.dropWhile (eq a))
termination_by l => l.length
decreasing_by
  simp only [List.length_cons]
  exact Nat.lt_succ_of_le (List.dropWhile_sublist _).length_le

/-- The loop `for k, v in groupby(...): grouped_data.append(...)` with a
body that can raise (through `percentage`): sequential accumulation that
aborts at the first error. -/
def mapME {α β : Type} (f : α → Except String β) : List α → Except String (List β)
  | [] => .ok []
  | a :: l => do
    let b ← f a
    let bs ← mapME f l
    pure (b :: bs)

/-! ## `get_top_occupations` -/

/-- The filter lambda of `get_top_occupations` (`r[status] == "CERTIFIED"`
and code and name both not `None` and not `''`), applied to the primary
(index `0`) columns. -/
def occFilterPred (name0 code0 status0 : String) (r : Rec) : Bool :=
  (getVal r status0 == Value.vstr "CERTIFIED")
    && !(getVal r code0 == Value.vnone) && !(getVal r code0 == Value.vstr "")
    && !(getVal r name0 == Value.vnone) && !(getVal r name0 == Value.vstr "")

/-- The three reconciliation passes at the top of `get_top_occupations`:
case number, then certification status, then the joint code/name pass. -/
def occ_reconcile (soc_name_fl soc_code_fl cert_fl case_fl : List String)
    (data : List Rec) : List Rec :=
  reconcile_occ_fields soc_name_fl soc_code_fl
    (reconcile_field cert_fl (reconcile_field case_fl data))

/-- One report row of the occupations report
(`{TOP_OCCUPATIONS: k, NUMBER_CERTIFIED_APPLICATIONS: part, PERCENTAGE:
str(percentage(part, whole)) + "%"}` for one `groupby` run). -/
def mkOccRow (whole : Nat) (group_key : String) (chunk : List Rec) :
    Except String Rec := do
  let p ← percentage chunk.length whole
  pure (fun k =>
    if k = "TOP_OCCUPATIONS" then getVal (chunk.headD (fun _ => Value.vnone)) group_key
    else if k = "NUMBER_CERTIFIED_APPLICATIONS" then Value.vint chunk.length
    else if k = "PERCENTAGE" then Value.vstr (toString p ++ "%")
    else Value.vnone)

/-- `filtered_data` of `get_top_occupations`: filter to certified
records with non-empty name and code, project to case number and name,
sort ascending by name. -/
def occ_filtered (soc_name_fl soc_code_fl cert_fl case_fl : List String)
    (data : List Rec) : Except String (List Rec) :=
  query_load (occ_reconcile soc_name_fl soc_code_fl cert_fl case_fl data)
    (some (occFilterPred (soc_name_fl.headD "") (soc_code_fl.headD "")
      (cert_fl.headD "")))
    (some [case_fl.headD "", soc_name_fl.headD ""])
    (some [soc_name_fl.headD ""]) none

/-- `grouped_data` of `get_top_occupations`: one row per `groupby` run
of equal occupation names. -/
def occ_grouped (soc_name_fl soc_code_fl cert_fl case_fl : List String)
    (data : List Rec) : Except String (List Rec) := do
  let filtered ← occ_filtered soc_name_fl soc_code_fl cert_fl case_fl data
  mapME (mkOccRow filtered.length (soc_name_fl.headD ""))
    (groupRuns (fun a b =>
        getVal a (soc_name_fl.headD "") == getVal b (soc_name_fl.headD "")) filtered)

/-- `sorted_data` of `get_top_occupations`: the grouped rows re-sorted
by count descending then label ascending, before truncation. -/
def occ_report_unlimited (soc_name_fl soc_code_fl cert_fl case_fl : List String)
    (data : List Rec) : Except String (List Rec) := do
  let grouped ← occ_grouped soc_name_fl soc_code_fl cert_fl case_fl data
  query_load grouped none none
    (some ["NUMBER_CERTIFIED_APPLICATIONS", "TOP_OCCUPATIONS"])
    (some ["Descending", "Ascending"])

/-- `get_top_occupations(count, data, ...)`: the output header triple and
`sorted_data[:count]`. -/
def get_top_occupations (count : Nat) (data : List Rec)
    (soc_name_fl soc_code_fl cert_fl case_fl : List String) :
    Except String (List String × List Rec) := do
  let sorted_data ← occ_report_unlimited soc_name_fl soc_code_fl cert_fl case_fl data
  pure (["TOP_OCCUPATIONS", "NUMBER_CERTIFIED_APPLICATIONS", "PERCENTAGE"],
    sorted_data.take count)

/-! ## `get_top_states` -/

/-- The filter lambda of `get_top_states` (`r[status] == "CERTIFIED"`
and work state not `None` and not `''`). -/
def stFilterPred (state0 status0 : String) (r : Rec) : Bool :=
  (getVal r status0 == Value.vstr "CERTIFIED")
    && !(getVal r state0 == Value.vnone) && !(getVal r state0 == Value.vstr "")

/-- The three reconciliation passes at the top of `get_top_states`:
work state, then case number, then certification status. -/
def st_reconcile (work_state_fl cert_fl case_fl : List String)
    (data : List Rec) : List Rec :=
  reconcile_field cert_fl (reconcile_field case_fl (reconcile_field work_state_fl data))

/-- One report row of the states report. -/
def mkStRow (whole : Nat) (group_key : String) (chunk : List Rec) :
    Except String Rec := do
  let p ← percentage chunk.length whole
  pure (fun k =>
    if k = "TOP_STATES" then getVal (chunk.headD (fun _ => Value.vnone)) group_key
    else if k = "NUMBER_CERTIFIED_APPLICATIONS" then Value.vint chunk.length
    else if k = "PERCENTAGE" then Value.vstr (toString p ++ "%")
    else Value.vnone)

/-- `filtered_data` of `get_top_states`. -/
def st_filtered (work_state_fl cert_fl case_fl : List String)
    (data : List Rec) : Except String (List Rec) :=
  query_load (st_reconcile work_state_fl cert_fl case_fl data)
    (some (stFilterPred (work_state_fl.headD "") (cert_fl.headD "")))
    (some [case_fl.headD "", work_state_fl.headD ""])
    (some [work_state_fl.headD ""]) none

/-- `grouped_data` of `get_top_states`. -/
def st_grouped (work_state_fl cert_fl case_fl : List String)
    (data : List Rec) : Except String (List Rec) := do
  let filtered ← st_filtered work_state_fl cert_fl case_fl data
  mapME (mkStRow filtered.length (work_state_fl.headD ""))
    (groupRuns (fun a b =>
        getVal a (work_state_fl.headD "") == getVal b (work_state_fl.headD "")) filtered)

/-- `sorted_data` of `get_top_states`, before truncation. -/
def st_report_unlimited (work_state_fl cert_fl case_fl : List String)
    (data : List Rec) : Except String (List Rec) := do
  let grouped ← st_grouped work_state_fl cert_fl case_fl data
  query_load grouped none none
    (some ["NUMBER_CERTIFIED_APPLICATIONS", "TOP_STATES"])
    (some ["Descending", "Ascending"])

/-- `get_top_states(count, data, ...)`. -/
def get_top_states (count : Nat) (data : List Rec)
    (work_state_fl cert_fl case_fl : List String) :
    Except String (List String × List Rec) := do
  let sorted_data ← st_report_unlimited work_state_fl cert_fl case_fl data
  pure (["TOP_STATES", "NUMBER_CERTIFIED_APPLICATIONS", "PERCENTAGE"],
    sorted_data.take count)

/-- The `NUMBER_CERTIFIED_APPLICATIONS` entry of a report row, as a
count. -/
def rowCount (r : Rec) : Nat :=
  match getVal r "NUMBER_CERTIFIED_APPLICATIONS" with
  | .vint n => n
  | _ => 0

/-- "count descending, ties broken by label ascending": the ranking of
report rows, labels compared in the pipeline's value order (which on the
string labels produced here is Python's string order). -/
def rankBefore (label_key : String) (r1 r2 : Rec) : Prop :=
  rowCount r2 < rowCount r1 ∨
    (rowCount r1 = rowCount r2 ∧ cmpV (getVal r1 label_key) (getVal r2 label_key) ≤ 0)

/-- The row `mkOccRow` produces when the denominator is non-zero. -/
def mkOccRowPure (whole : Nat) (group_key : String) (chunk : List Rec) : Rec :=
  fun k =>
    if k = "TOP_OCCUPATIONS" then getVal (chunk.headD (fun _ => Value.vnone)) group_key
    else if k = "NUMBER_CERTIFIED_APPLICATIONS" then Value.vint chunk.length
    else if k = "PERCENTAGE" then Value.vstr (toString (pctVal chunk.length whole) ++ "%")
    else Value.vnone

/-- The row `mkStRow` produces when the denominator is non-zero. -/
def mkStRowPure (whole : Nat) (group_key : String) (chunk : List Rec) : Rec :=
  fun k =>
    if k = "TOP_STATES" then getVal (chunk.headD (fun _ => Value.vnone)) group_key
    else if k = "NUMBER_CERTIFIED_APPLICATIONS" then Value.vint chunk.length
    else if k = "PERCENTAGE" then Value.vstr (toString (pctVal chunk.length whole) ++ "%")
    else Value.vnone

/-! ## Column resolution (`main`) -/

/-- The module-level static alias lists of possible column names. -/
def static_soc_name_field_list : List String :=
  ["pw_soc_title", "pw_soc_name", "suggested_soc_title", "suggested_soc_name",
   "pwd_soc_title", "pwd_soc_name", "soc_title", "lca_case_soc_name",
   "lca_case_soc_title", "soc_name"]

def static_soc_code_field_list : List String :=
  ["pw_soc_code", "suggested_soc_code", "pwd_soc_code", "soc_code",
   "pw soc code", "lca_case_soc_code"]

def static_certification_status_field_list : List String :=
  ["case_status", "case status", "approval_status", "status"]

def static_case_number_field_list : List String :=
  ["case_number", "case number", "case_no", "lca_case_number"]

def static_work_state_field_list : List String :=
  ["job_info_work_state", "primary_worksite_state", "worksite_state",
   "job info work state", "alien_work_state", "worksite_location_state",
   "state_2", "state_1", "lca_case_workloc1_state", "lca_case_workloc2_state"]

/-- `pat` occurs as a contiguous substring of `s`. -/
def containsSub (pat s : String) : Bool :=
  s.toList.tails.any (fun t => pat.toList.isPrefixOf t)

/-- `re.compile('.*(soc).*_(title|name)$').match`: "soc" occurs before a
final `_title` or `_name`. -/
def socNameFallback (s : String) : Bool :=
  (s.endsWith "_title" && containsSub "soc" (s.dropRight 6))
    || (s.endsWith "_name" && containsSub "soc" (s.dropRight 5))

/-- `re.compile('.*(soc).*_(code)$').match`. -/
def socCodeFallback (s : String) : Bool :=
  s.endsWith "_code" && containsSub "soc" (s.dropRight 5)

/-- `re.compile('.*(case|approval).*status$').match`. -/
def certStatusFallback (s : String) : Bool :=
  s.endsWith "status"
    && (containsSub "case" (s.dropRight 6) || containsSub "approval" (s.dropRight 6))

/-- `re.compile('.*case.*_(number|no)$').match`. -/
def caseNumberFallback (s : String) : Bool :=
  (s.endsWith "_number" && containsSub "case" (s.dropRight 7))
    || (s.endsWith "_no" && containsSub "case" (s.dropRight 3))

/-- `re.compile('.*(work|worksite).*_state$').match`. -/
def workStateFallback (s : String) : Bool :=
  s.endsWith "_state"
    && (containsSub "work" (s.dropRight 6) || containsSub "worksite" (s.dropRight 6))

/-- The resolution pattern used in `main` for each role:
`X = [k for k in headers if k in static_X]`, then
`X = list(filter(pattern.match, headers)) if not X else X`. -/
def resolve_field_list (headers static_list : List String)
    (fallback : String → Bool) : List String :=
  let from_static := headers.filter (fun k => static_list.contains k)
  if from_static.isEmpty then headers.filter fallback else from_static

/-- The five semantic roles resolved by `main`. -/
inductive Role where
  | socName | socCode | certStatus | caseNumber | workState
deriving DecidableEq, Repr

def staticAliases : Role → List String
  | .socName => static_soc_name_field_list
  | .socCode => static_soc_code_field_list
  | .certStatus => static_certification_status_field_list
  | .caseNumber => static_case_number_field_list
  | .workState => static_work_state_field_list

def fallbackPred : Role → String → Bool
  | .socName => socNameFallback
  | .socCode => socCodeFallback
  | .certStatus => certStatusFallback
  | .caseNumber => caseNumberFallback
  | .workState => workStateFallback

/-- Column resolution for one role, as performed in `main`. -/
def resolveRole (headers : List String) (role : Role) : List String :=
  resolve_field_list headers (staticAliases role) (fallbackPred role)

/-- The body of `main` after loading: resolve the five roles, check
that every role resolved and that the occupation name and code lists
have the same length (else a fatal `ValueError` before any
aggregation), then produce the two reports.  In the source
`get_top_occupations` mutates `data` in place through its
reconciliation passes before `get_top_states` runs; the embedding makes
that explicit by passing the reconciled list to `get_top_states`. -/
def mainProcess (headers : List String) (data : List Rec) :
    Except String ((List String × List Rec) × (List String × List Rec)) :=
  let soc_name_field_list := resolveRole headers .socName
  let soc_code_field_list := resolveRole headers .socCode
  let certification_status_field_list := resolveRole headers .certStatus
  let case_number_field_list := resolveRole headers .caseNumber
  let work_state_field_list := resolveRole headers .workState
  if soc_name_field_list.length = 0 ∨ soc_code_field_list.length = 0 ∨
      certification_status_field_list.length = 0 ∨
      case_number_field_list.length = 0 ∨ work_state_field_list.length = 0 ∨
      soc_name_field_list.length ≠ soc_code_field_list.length then
    .error "Could not find the required fields: SOC Name, SOC Code, Certification Status, Employee Work State or Case Number"
  else do
    let occ ← get_top_occupations 10 data soc_name_field_list soc_code_field_list
      certification_status_field_list case_number_field_list
    let st ← get_top_states 10
      (occ_reconcile soc_name_field_list soc_code_field_list
        certification_status_field_list case_number_field_list data)
      work_state_field_list certification_status_field_list case_number_field_list
    pure (occ, st)

/-! ## Sample records for concrete instances -/

/-- A sample non-certified record over single-alias headers. -/
def recDenied : Rec := fun k =>
  if k = "case_status" then Value.vstr "DENIED"
  else if k = "case_number" then Value.vstr "C-1"
  else if k = "soc_name" then Value.vstr "Software Developer"
  else if k = "soc_code" then Value.vstr "15-1132"
  else if k = "job_info_work_state" then Value.vstr "TX"
  else Value.vnone

/-- A sample record that differs from `sampleRecB` only outside the
sort keys used in the stability instance. -/
def sampleRecA : Rec := fun k => if k = "other" then Value.vint 1 else Value.vnone

def sampleRecB : Rec := fun k => if k = "other" then Value.vint 2 else Value.vnone

/-- Reconciliation sample: primary work-state empty, secondary `"TX"`. -/
def stateRecTX : Rec := fun k =>
  if k = "primary_worksite_state" then Value.vstr ""
  else if k = "worksite_state" then Value.vstr "TX"
  else Value.vnone

/-- Reconciliation sample for the joint occupation pass: primary code
and name empty, fallback code and name at index 1. -/
def occRecFallback : Rec := fun k =>
  if k = "pw_soc_code" then Value.vstr ""
  else if k = "pw_soc_title" then Value.vstr ""
  else if k = "soc_code" then Value.vstr "15-1132"
  else if k = "soc_title" then Value.vstr "Software Developer"
  else Value.vnone

/-! ## Helper lemmas about the comparator machinery -/

theorem pyCmp_swap {α : Type} [LinearOrder α] (a b : α) :
    pyCmp a b = -pyCmp b a := by
  rcases lt_trichotomy a b with h | h | h <;>
    simp [pyCmp, h, not_lt_of_gt, lt_irrefl]

theorem pyCmp_eq_zero_iff {α : Type} [LinearOrder α] (a b : α) :
    pyCmp a b = 0 ↔ a = b := by
  rcases lt_trichotomy a b with h | h | h <;>
    simp [pyCmp, h, not_lt_of_gt, ne_of_lt, ne_of_gt, lt_irrefl]

theorem pyCmp_neg_iff {α : Type} [LinearOrder α] (a b : α) :
    pyCmp a b < 0 ↔ a < b := by
  rcases lt_trichotomy a b with h | h | h <;>
    simp [pyCmp, h, not_lt_of_gt, lt_irrefl]

theorem cmpV_eq_zero_iff (a b : Value) : cmpV a b = 0 ↔ a = b := by
  cases a <;> cases b <;> simp [cmpV, pyCmp_eq_zero_iff]

theorem cmpV_swap (a b : Value) : cmpV a b = -cmpV b a := by
  cases a <;> cases b <;> simp [cmpV] <;> rw [pyCmp_swap]

theorem cmpV_lt_trans {a b c : Value} (h₁ : cmpV a b < 0) (h₂ : cmpV b c < 0) :
    cmpV a c < 0 := by
  cases a <;> cases b <;> cases c <;>
    simp_all [cmpV, pyCmp_neg_iff] <;> exact lt_trans h₁ h₂

theorem cmpV_le_trans {a b c : Value} (h₁ : cmpV a b ≤ 0) (h₂ : cmpV b c ≤ 0) :
    cmpV a c ≤ 0 := by
  rcases lt_or_eq_of_le h₁ with h₁ | h₁
  · rcases lt_or_eq_of_le h₂ with h₂ | h₂
    · exact le_of_lt (cmpV_lt_trans h₁ h₂)
    · rw [cmpV_eq_zero_iff] at h₂
      subst h₂; exact le_of_lt h₁
  · rw [cmpV_eq_zero_iff] at h₁
    subst h₁; exact h₂

theorem getVal_updRec (r : Rec) (k k2 : String) (v : Value) :
    getVal (updRec r k v) k2 = if k2 = k then v else getVal r k2 := rfl

theorem groupRuns_flatten {α : Type} (eq : α → α → Bool) :
    ∀ l : List α, (groupRuns eq l).flatten = l
  | [] => by simp [groupRuns]
  | a :: l => by
    have ih := groupRuns_flatten eq (l.dropWhile (eq a))
    rw [groupRuns]
    simp only [List.flatten_cons, ih, List.cons_append,
      List.takeWhile_append_dropWhile]
termination_by l => l.length
decreasing_by
  simp only [List.length_cons]
  exact Nat.lt_succ_of_le (List.dropWhile_sublist _).length_le

theorem comparer_nil (a b : Rec) : comparer [] a b = 0 := rfl

theorem comparer_cons (c : String × Int) (cs : List (String × Int)) (a b : Rec) :
    comparer (c :: cs) a b =
      if cmpV (getVal a c.1) (getVal b c.1) * c.2 ≠ 0
      then cmpV (getVal a c.1) (getVal b c.1) * c.2
      else comparer cs a b := rfl

theorem comparer_swap (cs : List (String × Int)) (a b : Rec) :
    comparer cs a b = -comparer cs b a := by
  induction cs with
  | nil => rfl
  | cons c t ih =>
    rw [comparer_cons, comparer_cons, cmpV_swap (getVal a c.1), neg_mul]
    by_cases h : cmpV (getVal b c.1) (getVal a c.1) * c.2 = 0
    · simp [h, ih]
    · simp [h, neg_eq_zero]

theorem mul_cmpV_eq_zero_iff {m : Int} (hm : m = -1 ∨ m = 1) (u v : Value) :
    cmpV u v * m = 0 ↔ u = v := by
  have hm0 : m ≠ 0 := by rcases hm with h | h <;> simp [h]
  rw [mul_eq_zero]
  simp [hm0, cmpV_eq_zero_iff]

theorem mul_cmpV_lt_trans {m : Int} (hm : m = -1 ∨ m = 1) {u v w : Value}
    (h₁ : cmpV u v * m < 0) (h₂ : cmpV v w * m < 0) : cmpV u w * m < 0 := by
  rcases hm with h | h
  · subst h
    have h₁ : cmpV v u < 0 := by rw [cmpV_swap]; omega
    have h₂ : cmpV w v < 0 := by rw [cmpV_swap]; omega
    have := cmpV_lt_trans h₂ h₁
    rw [cmpV_swap] at this
    omega
  · subst h
    simp only [mul_one] at h₁ h₂ ⊢
    exact cmpV_lt_trans h₁ h₂

theorem comparer_trans {cs : List (String × Int)}
    (hm : ∀ c ∈ cs, c.2 = -1 ∨ c.2 = 1) {a b c : Rec}
    (h₁ : comparer cs a b ≤ 0) (h₂ : comparer cs b c ≤ 0) :
    comparer cs a c ≤ 0 := by
  induction cs with
  | nil => simp [comparer_nil]
  | cons p t ih =>
    have hp := hm p (List.mem_cons_self p t)
    have ht : ∀ c ∈ t, c.2 = -1 ∨ c.2 = 1 := fun c hc => hm c (List.mem_cons_of_mem p hc)
    rw [comparer_cons] at h₁ h₂ ⊢
    by_cases hx : cmpV (getVal a p.1) (getVal b p.1) * p.2 = 0
    · have hab : getVal a p.1 = getVal b p.1 := (mul_cmpV_eq_zero_iff hp _ _).mp hx
      simp only [hx, ne_eq, not_true_eq_false, if_false, ite_not] at h₁
      rw [hab]
      by_cases hy : cmpV (getVal b p.1) (getVal c p.1) * p.2 = 0
      · simp only [hy, ne_eq, not_true_eq_false, if_false, ite_not] at h₂ ⊢
        exact ih ht h₁ h₂
      · simp only [hy, ne_eq, if_true, ite_not, if_neg] at h₂ ⊢
        simpa [hy] using h₂
    · simp only [hx, ne_eq, if_true, if_neg, not_false_eq_true] at h₁
      have hxlt : cmpV (getVal a p.1) (getVal b p.1) * p.2 < 0 :=
        lt_of_le_of_ne h₁ hx
      by_cases hy : cmpV (getVal b p.1) (getVal c p.1) * p.2 = 0
      · have hbc : getVal b p.1 = getVal c p.1 := (mul_cmpV_eq_zero_iff hp _ _).mp hy
        rw [← hbc]
        simp [hx, le_of_lt hxlt]
      · have hylt : cmpV (getVal b p.1) (getVal c p.1) * p.2 < 0 := by
          simp only [hy, ne_eq, not_false_eq_true, if_true] at h₂
          exact lt_of_le_of_ne h₂ hy
        have hz := mul_cmpV_lt_trans hp hxlt hylt
        simp [ne_of_lt hz, le_of_lt hz]

theorem mkComparers_mults (sort_keys sort_order : List String) :
    ∀ c ∈ mkComparers sort_keys sort_order, c.2 = -1 ∨ c.2 = 1 := by
  intro c hc
  simp only [mkComparers, List.mem_map] at hc
  obtain ⟨co, _, rfl⟩ := hc
  by_cases h : co.2 == "Descending" <;> simp [h]

theorem cmpVList_swap : ∀ (l1 l2 : List Value), cmpVList l1 l2 = -cmpVList l2 l1
  | [], [] => rfl
  | [], _ :: _ => rfl
  | _ :: _, [] => rfl
  | a :: as2, b :: bs => by
    rw [cmpVList, cmpVList, cmpV_swap a]
    by_cases h : cmpV b a = 0
    · simp [h, cmpVList_swap as2 bs]
    · simp [h, neg_eq_zero]

theorem cmpVList_trans : ∀ {l1 l2 l3 : List Value},
    cmpVList l1 l2 ≤ 0 → cmpVList l2 l3 ≤ 0 → cmpVList l1 l3 ≤ 0
  | [], [], l3, _, h₂ => h₂
  | [], _ :: _, [], _, _ => by simp [cmpVList]
  | [], _ :: _, _ :: _, _, _ => by simp [cmpVList]
  | _ :: _, [], _, h₁, _ => by simp [cmpVList] at h₁
  | _ :: _, _ :: _, [], _, h₂ => by simp [cmpVList] at h₂
  | a :: as2, b :: bs, c :: cs, h₁, h₂ => by
    rw [cmpVList] at h₁ h₂ ⊢
    by_cases hx : cmpV a b = 0
    · have hab : a = b := (cmpV_eq_zero_iff a b).mp hx
      subst hab
      simp only [hx, ne_eq, not_true_eq_false, if_false, ite_not] at h₁
      by_cases hy : cmpV a c = 0
      · simp only [hy, ne_eq, not_true_eq_false, if_false, ite_not] at h₂ ⊢
        exact cmpVList_trans h₁ h₂
      · simp only [hy, ne_eq, not_false_eq_true, if_true] at h₂ ⊢
        exact h₂
    · simp only [hx, ne_eq, not_false_eq_true, if_true] at h₁
      have hxlt : cmpV a b < 0 := lt_of_le_of_ne h₁ hx
      by_cases hy : cmpV b c = 0
      · have hbc : b = c := (cmpV_eq_zero_iff b c).mp hy
        subst hbc
        simp [hx, h₁]
      · have hylt : cmpV b c < 0 := by
          simp only [hy, ne_eq, not_false_eq_true, if_true] at h₂
          exact lt_of_le_of_ne h₂ hy
        have hz := cmpV_lt_trans hxlt hylt
        simp [ne_of_lt hz, le_of_lt hz]

theorem comparer_trans_bool (cs : List (String × Int))
    (hm : ∀ c ∈ cs, c.2 = -1 ∨ c.2 = 1) (a b c : Rec)
    (h₁ : decide (comparer cs a b ≤ 0) = true)
    (h₂ : decide (comparer cs b c ≤ 0) = true) :
    decide (comparer cs a c ≤ 0) = true := by
  simp only [decide_eq_true_eq] at h₁ h₂ ⊢
  exact comparer_trans hm h₁ h₂

theorem comparer_total_bool (cs : List (String × Int)) (a b : Rec) :
    (decide (comparer cs a b ≤ 0) || decide (comparer cs b a ≤ 0)) = true := by
  have h := comparer_swap cs a b
  simp only [Bool.or_eq_true, decide_eq_true_eq]
  omega

theorem keysort_trans_bool (sk : List String) (a b c : Rec)
    (h₁ : decide (cmpVList (sk.map (getVal a)) (sk.map (getVal b)) ≤ 0) = true)
    (h₂ : decide (cmpVList (sk.map (getVal b)) (sk.map (getVal c)) ≤ 0) = true) :
    decide (cmpVList (sk.map (getVal a)) (sk.map (getVal c)) ≤ 0) = true := by
  simp only [decide_eq_true_eq] at h₁ h₂ ⊢
  exact cmpVList_trans h₁ h₂

theorem keysort_total_bool (sk : List String) (a b : Rec) :
    (decide (cmpVList (sk.map (getVal a)) (sk.map (getVal b)) ≤ 0) ||
      decide (cmpVList (sk.map (getVal b)) (sk.map (getVal a)) ≤ 0)) = true := by
  have h := cmpVList_swap (sk.map (getVal a)) (sk.map (getVal b))
  simp only [Bool.or_eq_true, decide_eq_true_eq]
  omega

theorem comparer_eq_zero (cs : List (String × Int)) (a b : Rec)
    (h : ∀ c ∈ cs, getVal a c.1 = getVal b c.1) : comparer cs a b = 0 := by
  induction cs with
  | nil => rfl
  | cons c t ih =>
    rw [comparer_cons, h c (List.mem_cons_self c t)]
    have : cmpV (getVal b c.1) (getVal b c.1) = 0 := (cmpV_eq_zero_iff _ _).mpr rfl
    simp [this, ih (fun c hc => h c (List.mem_cons_of_mem _ hc))]

theorem cmpVList_self (l : List Value) : cmpVList l l = 0 := by
  induction l with
  | nil => rfl
  | cons a t ih =>
    have : cmpV a a = 0 := (cmpV_eq_zero_iff a a).mpr rfl
    rw [cmpVList]
    simp [this, ih]

/-! ## Claims about the query engine -/

/-- C7: calling the query engine with both `sort_keys` and `sort_order`
supplied but of different lengths fails with the validation error
`"Length of sort order and sort keys is not same"` and returns no
partial result (the `Except` is an error for every data set, filter and
projection). -/
theorem query_load_sort_order_mismatch (data : List Rec)
    (filter_expression : Option (Rec → Bool)) (project_keys : Option (List String))
    (sort_keys sort_order : List String)
    (h : sort_keys.length ≠ sort_order.length) :
    query_load data filter_expression project_keys (some sort_keys) (some sort_order) =
      .error "Length of sort order and sort keys is not same" := by
  unfold query_load
  simp [Ne.symm h]

theorem query_load_sort_order_mismatch_witness :
    (["a", "b"] : List String).length ≠ (["Descending"] : List String).length ∧
      query_load [] none none (some ["a", "b"]) (some ["Descending"]) =
        .error "Length of sort order and sort keys is not same" :=
  ⟨by decide,
    query_load_sort_order_mismatch [] none none ["a", "b"] ["Descending"] (by decide)⟩

/-- C10: when `sort_order` is supplied without `sort_keys`, the query
engine raises no validation error and ignores `sort_order` entirely:
the result is the filtered and projected data in its original order,
identical to the result with no `sort_order` at all (the length check
sits under `if sort_keys is not None`). -/
theorem query_load_sort_order_without_keys (data : List Rec)
    (filter_expression : Option (Rec → Bool)) (project_keys : Option (List String))
    (sort_order : List String) :
    query_load data filter_expression project_keys none (some sort_order) =
        .ok (apply_project project_keys (apply_filter filter_expression data)) ∧
      query_load data filter_expression project_keys none (some sort_order) =
        query_load data filter_expression project_keys none none :=
  ⟨rfl, rfl⟩

/-- C8: the query engine's sort is stable.  In both the
comparator branch (`sort_keys` with `sort_order`) and the key-tuple
branch (`sort_keys` alone), two records that agree on every sort key
(both as written and as stripped by the comparator) and appear in the
input in the order `a` then `b` still appear in that relative order in
the sorted output. -/
theorem query_engine_sort_stable (data : List Rec)
    (sort_keys sort_order : List String) (a b : Rec)
    (hlen : sort_order.length = sort_keys.length)
    (hsub : [a, b].Sublist data)
    (heq : ∀ k ∈ sort_keys, getVal a k = getVal b k)
    (heqt : ∀ k ∈ sort_keys, getVal a (pyStrip k) = getVal b (pyStrip k)) :
    (∃ out, query_load data none none (some sort_keys) (some sort_order) = .ok out ∧
        [a, b].Sublist out) ∧
      (∃ out, query_load data none none (some sort_keys) none = .ok out ∧
        [a, b].Sublist out) := by
  constructor
  · refine ⟨(data.mergeSort fun x y =>
        decide (comparer (mkComparers sort_keys sort_order) x y ≤ 0)), ?_, ?_⟩
    · unfold query_load
      simp [hlen, apply_filter, apply_project]
    · have hab : decide (comparer (mkComparers sort_keys sort_order) a b ≤ 0) = true := by
        have hz : comparer (mkComparers sort_keys sort_order) a b = 0 := by
          apply comparer_eq_zero
          intro c hc
          simp only [mkComparers, List.mem_map] at hc
          obtain ⟨co, hco, rfl⟩ := hc
          exact heqt co.1 (List.of_mem_zip hco).1
        simp [hz]
      exact List.pair_sublist_mergeSort
        (comparer_trans_bool _ (mkComparers_mults sort_keys sort_order))
        (comparer_total_bool _) hab hsub
  · refine ⟨(data.mergeSort fun x y =>
        decide (cmpVList (sort_keys.map (getVal x)) (sort_keys.map (getVal y)) ≤ 0)),
        ?_, ?_⟩
    · unfold query_load
      simp [apply_filter, apply_project]
    · have hmaps : sort_keys.map (getVal a) = sort_keys.map (getVal b) :=
        List.map_congr_left heq
      have hab : decide (cmpVList (sort_keys.map (getVal a))
          (sort_keys.map (getVal b)) ≤ 0) = true := by
        rw [hmaps]
        simp [cmpVList_self]
      exact List.pair_sublist_mergeSort (keysort_trans_bool sort_keys)
        (keysort_total_bool sort_keys) hab hsub

theorem query_engine_sort_stable_witness :
    (sampleRecA ≠ sampleRecB) ∧
      (∃ out, query_load [sampleRecA, sampleRecB] none none
          (some ["x"]) (some ["Ascending"]) = .ok out ∧
          [sampleRecA, sampleRecB].Sublist out) ∧
      (∃ out, query_load [sampleRecA, sampleRecB] none none
          (some ["x"]) none = .ok out ∧
          [sampleRecA, sampleRecB].Sublist out) := by
  refine ⟨fun h => ?_, ?_⟩
  · have := congrFun h "other"
    simp [sampleRecA, sampleRecB] at this
  · exact query_engine_sort_stable [sampleRecA, sampleRecB] ["x"] ["Ascending"]
      sampleRecA sampleRecB rfl (List.Sublist.refl _) (by decide) (by decide)

/-! ## Claims about column resolution -/

/-- C5: for every header list and every role, resolution first returns
exactly the headers that appear in the role's static alias list, in
header order (a sublist of `headers`, not in alias-list order); the
regex fallback is consulted only when the static pass yields zero
matches, and its matches are also returned in header order. -/
theorem resolveRole_spec (headers : List String) (role : Role) :
    ((∃ h, h ∈ headers ∧ h ∈ staticAliases role) →
      (resolveRole headers role).Sublist headers ∧
        ∀ k, k ∈ resolveRole headers role ↔ k ∈ headers ∧ k ∈ staticAliases role) ∧
      ((∀ h ∈ headers, h ∉ staticAliases role) →
        (resolveRole headers role).Sublist headers ∧
          ∀ k, k ∈ resolveRole headers role ↔
            k ∈ headers ∧ fallbackPred role k = true) := by
  constructor
  · rintro ⟨h, hh, hs⟩
    have hmem : h ∈ headers.filter (fun k => (staticAliases role).contains k) := by
      simp [List.mem_filter, hh, hs]
    have hne : (headers.filter (fun k => (staticAliases role).contains k)).isEmpty
        = false := by
      cases hfe : headers.filter (fun k => (staticAliases role).contains k) with
      | nil => rw [hfe] at hmem; simp at hmem
      | cons x xs => simp
    constructor
    · rw [resolveRole, resolve_field_list]
      simp only [hne, Bool.false_eq_true, if_false]
      exact List.filter_sublist headers
    · intro k
      rw [resolveRole, resolve_field_list]
      simp only [hne, Bool.false_eq_true, if_false]
      simp [List.mem_filter]
  · intro hall
    have hnil : headers.filter (fun k => (staticAliases role).contains k) = [] := by
      rw [List.filter_eq_nil_iff]
      intro a ha
      simpa using hall a ha
    constructor
    · rw [resolveRole, resolve_field_list]
      simp only [hnil, List.isEmpty_nil, if_true]
      exact List.filter_sublist headers
    · intro k
      rw [resolveRole, resolve_field_list]
      simp only [hnil, List.isEmpty_nil, if_true]
      simp [List.mem_filter]

theorem resolveRole_spec_witness :
    (∃ h, h ∈ ["pw_soc_title", "pw_soc_code", "case_status", "case_number",
        "job_info_work_state"] ∧ h ∈ staticAliases Role.socName) ∧
      (resolveRole ["pw_soc_title", "pw_soc_code", "case_status", "case_number",
        "job_info_work_state"] Role.socName).Sublist
        ["pw_soc_title", "pw_soc_code", "case_status", "case_number",
        "job_info_work_state"] :=
  ⟨⟨"pw_soc_title", by decide, by decide⟩,
    ((resolveRole_spec ["pw_soc_title", "pw_soc_code", "case_status", "case_number",
        "job_info_work_state"] Role.socName).1
      ⟨"pw_soc_title", by decide, by decide⟩).1⟩

/-- C6: if any of the five required roles resolves to zero columns
after both passes, or the resolved occupation-name and occupation-code
lists have different lengths, `main` fails with its fatal
`"Could not find the required fields ..."` error — for every data set,
i.e. before any aggregation is performed. -/
theorem mainProcess_resolution_failure (headers : List String) (data : List Rec)
    (h : (resolveRole headers .socName).length = 0 ∨
      (resolveRole headers .socCode).length = 0 ∨
      (resolveRole headers .certStatus).length = 0 ∨
      (resolveRole headers .caseNumber).length = 0 ∨
      (resolveRole headers .workState).length = 0 ∨
      (resolveRole headers .socName).length ≠ (resolveRole headers .socCode).length) :
    mainProcess headers data =
      .error "Could not find the required fields: SOC Name, SOC Code, Certification Status, Employee Work State or Case Number" := by
  simp only [mainProcess]
  rw [if_pos h]

theorem mainProcess_resolution_failure_witness :
    ((resolveRole ["pw_soc_title", "pw_soc_name", "pw_soc_code", "case_status",
          "case_number", "job_info_work_state"] .socName).length ≠
        (resolveRole ["pw_soc_title", "pw_soc_name", "pw_soc_code", "case_status",
          "case_number", "job_info_work_state"] .socCode).length) ∧
      mainProcess ["pw_soc_title", "pw_soc_name", "pw_soc_code", "case_status",
          "case_number", "job_info_work_state"] [] =
        .error "Could not find the required fields: SOC Name, SOC Code, Certification Status, Employee Work State or Case Number" :=
  ⟨by decide,
    mainProcess_resolution_failure _ []
      (Or.inr (Or.inr (Or.inr (Or.inr (Or.inr (by decide))))))⟩

/-! ## Helper lemmas about the aggregation pipelines -/

theorem query_load_keys_only (data : List Rec) (f : Option (Rec → Bool))
    (pk : Option (List String)) (sk : List String) :
    query_load data f pk (some sk) none =
      .ok ((apply_project pk (apply_filter f data)).mergeSort
        (fun a b => decide (cmpVList (sk.map (getVal a)) (sk.map (getVal b)) ≤ 0))) :=
  rfl

theorem bind_ok_eq {α β : Type} (a : α) (f : α → Except String β) :
    ((Except.ok a : Except String α) >>= f) = f a := rfl

theorem pure_eq_ok {α : Type} (a : α) : (pure a : Except String α) = .ok a := rfl

theorem groupRuns_nil {α : Type} (eq : α → α → Bool) : groupRuns eq [] = [] := by
  rw [groupRuns]

theorem groupRuns_cons {α : Type} (eq : α → α → Bool) (a : α) (l : List α) :
    groupRuns eq (a :: l) =
      (a :: l.takeWhile (eq a)) :: groupRuns eq (l.dropWhile (eq a)) := by
  rw [groupRuns]

theorem occ_filtered_nil (soc_name_fl soc_code_fl cert_fl case_fl : List String)
    (data : List Rec)
    (h : (occ_reconcile soc_name_fl soc_code_fl cert_fl case_fl data).filter
      (occFilterPred (soc_name_fl.headD "") (soc_code_fl.headD "")
        (cert_fl.headD "")) = []) :
    occ_filtered soc_name_fl soc_code_fl cert_fl case_fl data = .ok [] := by
  rw [occ_filtered, query_load_keys_only]
  rw [show apply_filter (some (occFilterPred (soc_name_fl.headD "")
      (soc_code_fl.headD "") (cert_fl.headD "")))
      (occ_reconcile soc_name_fl soc_code_fl cert_fl case_fl data) = [] from h]
  rw [show apply_project (some [case_fl.headD "", soc_name_fl.headD ""])
      ([] : List Rec) = [] from rfl]
  simp

theorem st_filtered_nil (work_state_fl cert_fl case_fl : List String)
    (data : List Rec)
    (h : (st_reconcile work_state_fl cert_fl case_fl data).filter
      (stFilterPred (work_state_fl.headD "") (cert_fl.headD "")) = []) :
    st_filtered work_state_fl cert_fl case_fl data = .ok [] := by
  rw [st_filtered, query_load_keys_only]
  rw [show apply_filter (some (stFilterPred (work_state_fl.headD "")
      (cert_fl.headD "")))
      (st_reconcile work_state_fl cert_fl case_fl data) = [] from h]
  rw [show apply_project (some [case_fl.headD "", work_state_fl.headD ""])
      ([] : List Rec) = [] from rfl]
  simp

theorem get_top_occupations_of_filter_nil (count : Nat)
    (soc_name_fl soc_code_fl cert_fl case_fl : List String) (data : List Rec)
    (h : (occ_reconcile soc_name_fl soc_code_fl cert_fl case_fl data).filter
      (occFilterPred (soc_name_fl.headD "") (soc_code_fl.headD "")
        (cert_fl.headD "")) = []) :
    get_top_occupations count data soc_name_fl soc_code_fl cert_fl case_fl =
      .ok (["TOP_OCCUPATIONS", "NUMBER_CERTIFIED_APPLICATIONS", "PERCENTAGE"], []) := by
  rw [get_top_occupations, occ_report_unlimited, occ_grouped,
    occ_filtered_nil soc_name_fl soc_code_fl cert_fl case_fl data h,
    bind_ok_eq, groupRuns_nil]
  rw [show mapME (mkOccRow (List.length ([] : List Rec)) (soc_name_fl.headD ""))
      [] = .ok [] from rfl, bind_ok_eq]
  have hq : query_load [] none none
      (some ["NUMBER_CERTIFIED_APPLICATIONS", "TOP_OCCUPATIONS"])
      (some ["Descending", "Ascending"]) = .ok [] := by
    rw [query_load]
    simp [apply_filter, apply_project]
  rw [hq, bind_ok_eq, pure_eq_ok]
  simp

theorem get_top_states_of_filter_nil (count : Nat)
    (work_state_fl cert_fl case_fl : List String) (data : List Rec)
    (h : (st_reconcile work_state_fl cert_fl case_fl data).filter
      (stFilterPred (work_state_fl.headD "") (cert_fl.headD "")) = []) :
    get_top_states count data work_state_fl cert_fl case_fl =
      .ok (["TOP_STATES", "NUMBER_CERTIFIED_APPLICATIONS", "PERCENTAGE"], []) := by
  rw [get_top_states, st_report_unlimited, st_grouped,
    st_filtered_nil work_state_fl cert_fl case_fl data h,
    bind_ok_eq, groupRuns_nil]
  rw [show mapME (mkStRow (List.length ([] : List Rec)) (work_state_fl.headD ""))
      [] = .ok [] from rfl, bind_ok_eq]
  have hq : query_load [] none none
      (some ["NUMBER_CERTIFIED_APPLICATIONS", "TOP_STATES"])
      (some ["Descending", "Ascending"]) = .ok [] := by
    rw [query_load]
    simp [apply_filter, apply_project]
  rw [hq, bind_ok_eq, pure_eq_ok]
  simp

theorem mapME_ok {α β : Type} (f : α → Except String β) (g : α → β) (l : List α)
    (hf : ∀ a ∈ l, f a = .ok (g a)) : mapME f l = .ok (l.map g) := by
  induction l with
  | nil => rfl
  | cons a t ih =>
    rw [mapME, hf a (List.mem_cons_self a t), bind_ok_eq,
      ih (fun x hx => hf x (List.mem_cons_of_mem a hx)), bind_ok_eq, pure_eq_ok]
    rfl

theorem mkOccRow_ok (whole : Nat) (nk : String) (c : List Rec) (hw : whole ≠ 0) :
    mkOccRow whole nk c = .ok (mkOccRowPure whole nk c) := by
  rw [mkOccRow, percentage, if_neg hw, bind_ok_eq, pure_eq_ok]
  rfl

theorem mkStRow_ok (whole : Nat) (nk : String) (c : List Rec) (hw : whole ≠ 0) :
    mkStRow whole nk c = .ok (mkStRowPure whole nk c) := by
  rw [mkStRow, percentage, if_neg hw, bind_ok_eq, pure_eq_ok]
  rfl

theorem getVal_mkOccRowPure_count (whole : Nat) (nk : String) (c : List Rec) :
    getVal (mkOccRowPure whole nk c) "NUMBER_CERTIFIED_APPLICATIONS" =
      Value.vint c.length := by
  have h1 : ("NUMBER_CERTIFIED_APPLICATIONS" : String) ≠ "TOP_OCCUPATIONS" := by decide
  simp [getVal, mkOccRowPure, h1]

theorem getVal_mkStRowPure_count (whole : Nat) (nk : String) (c : List Rec) :
    getVal (mkStRowPure whole nk c) "NUMBER_CERTIFIED_APPLICATIONS" =
      Value.vint c.length := by
  have h1 : ("NUMBER_CERTIFIED_APPLICATIONS" : String) ≠ "TOP_STATES" := by decide
  simp [getVal, mkStRowPure, h1]

theorem rowCount_mkOccRowPure (whole : Nat) (nk : String) (c : List Rec) :
    rowCount (mkOccRowPure whole nk c) = c.length := by
  simp only [rowCount, getVal_mkOccRowPure_count]

theorem rowCount_mkStRowPure (whole : Nat) (nk : String) (c : List Rec) :
    rowCount (mkStRowPure whole nk c) = c.length := by
  simp only [rowCount, getVal_mkStRowPure_count]

theorem query_load_with_order (data : List Rec) (sk so : List String)
    (h : so.length = sk.length) :
    query_load data none none (some sk) (some so) =
      .ok (data.mergeSort
        (fun a b => decide (comparer (mkComparers sk so) a b ≤ 0))) := by
  rw [query_load]
  simp [apply_filter, apply_project, h]

theorem occ_filtered_ok (soc_name_fl soc_code_fl cert_fl case_fl : List String)
    (data : List Rec) :
    ∃ F, occ_filtered soc_name_fl soc_code_fl cert_fl case_fl data = .ok F ∧
      F.length = (occ_reconcile soc_name_fl soc_code_fl cert_fl case_fl data).countP
        (occFilterPred (soc_name_fl.headD "") (soc_code_fl.headD "")
          (cert_fl.headD "")) := by
  refine ⟨_, query_load_keys_only _ _ _ _, ?_⟩
  simp only [apply_filter, apply_project, List.length_mergeSort, List.length_map]
  rw [List.countP_eq_length_filter]

theorem st_filtered_ok (work_state_fl cert_fl case_fl : List String)
    (data : List Rec) :
    ∃ F, st_filtered work_state_fl cert_fl case_fl data = .ok F ∧
      F.length = (st_reconcile work_state_fl cert_fl case_fl data).countP
        (stFilterPred (work_state_fl.headD "") (cert_fl.headD "")) := by
  refine ⟨_, query_load_keys_only _ _ _ _, ?_⟩
  simp only [apply_filter, apply_project, List.length_mergeSort, List.length_map]
  rw [List.countP_eq_length_filter]

theorem sum_rowCount_chunks (mk : List Rec → Rec)
    (hmk : ∀ c, rowCount (mk c) = c.length) (chunks : List (List Rec)) :
    ((chunks.map mk).map rowCount).sum = (chunks.map List.length).sum := by
  rw [List.map_map]
  congr 1
  exact List.map_congr_left (fun c _ => hmk c)

theorem occ_grouped_ok (soc_name_fl soc_code_fl cert_fl case_fl : List String)
    (data : List Rec) :
    ∃ rows, occ_grouped soc_name_fl soc_code_fl cert_fl case_fl data = .ok rows ∧
      (rows.map rowCount).sum =
        (occ_reconcile soc_name_fl soc_code_fl cert_fl case_fl data).countP
          (occFilterPred (soc_name_fl.headD "") (soc_code_fl.headD "")
            (cert_fl.headD "")) := by
  obtain ⟨F, hF, hlen⟩ := occ_filtered_ok soc_name_fl soc_code_fl cert_fl case_fl data
  rw [occ_grouped, hF, bind_ok_eq]
  by_cases hF0 : F = []
  · subst hF0
    rw [groupRuns_nil]
    exact ⟨[], rfl, by rw [← hlen]; simp⟩
  · have hw : F.length ≠ 0 := fun h => hF0 (List.length_eq_zero.mp h)
    rw [mapME_ok (mkOccRow F.length (soc_name_fl.headD ""))
      (mkOccRowPure F.length (soc_name_fl.headD "")) _
      (fun c _ => mkOccRow_ok F.length (soc_name_fl.headD "") c hw)]
    refine ⟨_, rfl, ?_⟩
    rw [sum_rowCount_chunks _ (rowCount_mkOccRowPure F.length (soc_name_fl.headD "")) _]
    rw [← List.length_flatten, groupRuns_flatten, hlen]

theorem st_grouped_ok (work_state_fl cert_fl case_fl : List String)
    (data : List Rec) :
    ∃ rows, st_grouped work_state_fl cert_fl case_fl data = .ok rows ∧
      (rows.map rowCount).sum =
        (st_reconcile work_state_fl cert_fl case_fl data).countP
          (stFilterPred (work_state_fl.headD "") (cert_fl.headD "")) := by
  obtain ⟨F, hF, hlen⟩ := st_filtered_ok work_state_fl cert_fl case_fl data
  rw [st_grouped, hF, bind_ok_eq]
  by_cases hF0 : F = []
  · subst hF0
    rw [groupRuns_nil]
    exact ⟨[], rfl, by rw [← hlen]; simp⟩
  · have hw : F.length ≠ 0 := fun h => hF0 (List.length_eq_zero.mp h)
    rw [mapME_ok (mkStRow F.length (work_state_fl.headD ""))
      (mkStRowPure F.length (work_state_fl.headD "")) _
      (fun c _ => mkStRow_ok F.length (work_state_fl.headD "") c hw)]
    refine ⟨_, rfl, ?_⟩
    rw [sum_rowCount_chunks _ (rowCount_mkStRowPure F.length (work_state_fl.headD "")) _]
    rw [← List.length_flatten, groupRuns_flatten, hlen]

theorem occ_report_unlimited_ok (soc_name_fl soc_code_fl cert_fl case_fl : List String)
    (data : List Rec) :
    ∃ rows, occ_report_unlimited soc_name_fl soc_code_fl cert_fl case_fl data = .ok rows ∧
      (rows.map rowCount).sum =
        (occ_reconcile soc_name_fl soc_code_fl cert_fl case_fl data).countP
          (occFilterPred (soc_name_fl.headD "") (soc_code_fl.headD "")
            (cert_fl.headD "")) := by
  obtain ⟨g, hg, hsum⟩ := occ_grouped_ok soc_name_fl soc_code_fl cert_fl case_fl data
  rw [occ_report_unlimited, hg, bind_ok_eq,
    query_load_with_order g ["NUMBER_CERTIFIED_APPLICATIONS", "TOP_OCCUPATIONS"]
      ["Descending", "Ascending"] (by rfl)]
  refine ⟨_, rfl, ?_⟩
  rw [((List.mergeSort_perm g _).map rowCount).sum_eq, hsum]

theorem st_report_unlimited_ok (work_state_fl cert_fl case_fl : List String)
    (data : List Rec) :
    ∃ rows, st_report_unlimited work_state_fl cert_fl case_fl data = .ok rows ∧
      (rows.map rowCount).sum =
        (st_reconcile work_state_fl cert_fl case_fl data).countP
          (stFilterPred (work_state_fl.headD "") (cert_fl.headD "")) := by
  obtain ⟨g, hg, hsum⟩ := st_grouped_ok work_state_fl cert_fl case_fl data
  rw [st_report_unlimited, hg, bind_ok_eq,
    query_load_with_order g ["NUMBER_CERTIFIED_APPLICATIONS", "TOP_STATES"]
      ["Descending", "Ascending"] (by rfl)]
  refine ⟨_, rfl, ?_⟩
  rw [((List.mergeSort_perm g _).map rowCount).sum_eq, hsum]

/-! ## C1 -/

/-- C1 (amended): `percentage` itself fails with the zero-denominator
validation error, but `get_top_occupations` and `get_top_states` never
reach it on a dataset in which no record passes the certified/non-empty
filter: `groupby` of the empty filtered list yields no groups, so both
functions return a report with zero rows instead of failing. -/
theorem zero_filtered_returns_empty_report (count part : Nat)
    (soc_name_fl soc_code_fl cert_fl case_fl work_state_fl : List String)
    (data : List Rec)
    (hocc : (occ_reconcile soc_name_fl soc_code_fl cert_fl case_fl data).filter
      (occFilterPred (soc_name_fl.headD "") (soc_code_fl.headD "")
        (cert_fl.headD "")) = [])
    (hst : (st_reconcile work_state_fl cert_fl case_fl data).filter
      (stFilterPred (work_state_fl.headD "") (cert_fl.headD "")) = []) :
    percentage part 0 = .error "Denominator cannot be 0" ∧
      get_top_occupations count data soc_name_fl soc_code_fl cert_fl case_fl =
        .ok (["TOP_OCCUPATIONS", "NUMBER_CERTIFIED_APPLICATIONS", "PERCENTAGE"], []) ∧
      get_top_states count data work_state_fl cert_fl case_fl =
        .ok (["TOP_STATES", "NUMBER_CERTIFIED_APPLICATIONS", "PERCENTAGE"], []) :=
  ⟨rfl,
    get_top_occupations_of_filter_nil count soc_name_fl soc_code_fl cert_fl case_fl
      data hocc,
    get_top_states_of_filter_nil count work_state_fl cert_fl case_fl data hst⟩

theorem zero_filtered_returns_empty_report_witness :
    percentage 3 0 = .error "Denominator cannot be 0" ∧
      get_top_occupations 10 [recDenied] ["soc_name"] ["soc_code"] ["case_status"]
          ["case_number"] =
        .ok (["TOP_OCCUPATIONS", "NUMBER_CERTIFIED_APPLICATIONS", "PERCENTAGE"], []) ∧
      get_top_states 10 [recDenied] ["job_info_work_state"] ["case_status"]
          ["case_number"] =
        .ok (["TOP_STATES", "NUMBER_CERTIFIED_APPLICATIONS", "PERCENTAGE"], []) :=
  zero_filtered_returns_empty_report 10 3 ["soc_name"] ["soc_code"] ["case_status"]
    ["case_number"] ["job_info_work_state"] [recDenied] rfl rfl

theorem occ_grouped_shape (soc_name_fl soc_code_fl cert_fl case_fl : List String)
    (data : List Rec) :
    ∃ rows, occ_grouped soc_name_fl soc_code_fl cert_fl case_fl data = .ok rows ∧
      ∀ r ∈ rows, ∃ n, getVal r "NUMBER_CERTIFIED_APPLICATIONS" = Value.vint n := by
  obtain ⟨F, hF, _⟩ := occ_filtered_ok soc_name_fl soc_code_fl cert_fl case_fl data
  rw [occ_grouped, hF, bind_ok_eq]
  by_cases hF0 : F = []
  · subst hF0
    rw [groupRuns_nil]
    exact ⟨[], rfl, by simp⟩
  · have hw : F.length ≠ 0 := fun h => hF0 (List.length_eq_zero.mp h)
    rw [mapME_ok (mkOccRow F.length (soc_name_fl.headD ""))
      (mkOccRowPure F.length (soc_name_fl.headD "")) _
      (fun c _ => mkOccRow_ok F.length (soc_name_fl.headD "") c hw)]
    refine ⟨_, rfl, ?_⟩
    intro r hr
    obtain ⟨c, _, rfl⟩ := List.mem_map.mp hr
    exact ⟨c.length, getVal_mkOccRowPure_count _ _ _⟩

theorem st_grouped_shape (work_state_fl cert_fl case_fl : List String)
    (data : List Rec) :
    ∃ rows, st_grouped work_state_fl cert_fl case_fl data = .ok rows ∧
      ∀ r ∈ rows, ∃ n, getVal r "NUMBER_CERTIFIED_APPLICATIONS" = Value.vint n := by
  obtain ⟨F, hF, _⟩ := st_filtered_ok work_state_fl cert_fl case_fl data
  rw [st_grouped, hF, bind_ok_eq]
  by_cases hF0 : F = []
  · subst hF0
    rw [groupRuns_nil]
    exact ⟨[], rfl, by simp⟩
  · have hw : F.length ≠ 0 := fun h => hF0 (List.length_eq_zero.mp h)
    rw [mapME_ok (mkStRow F.length (work_state_fl.headD ""))
      (mkStRowPure F.length (work_state_fl.headD "")) _
      (fun c _ => mkStRow_ok F.length (work_state_fl.headD "") c hw)]
    refine ⟨_, rfl, ?_⟩
    intro r hr
    obtain ⟨c, _, rfl⟩ := List.mem_map.mp hr
    exact ⟨c.length, getVal_mkStRowPure_count _ _ _⟩

/-- The comparator of the final ranking pass, translated to the spec's
"count descending, label ascending" order on rows whose count entries
are integers. -/
theorem comparer_rank (lbl : String) (a b : Rec) (na nb : Nat)
    (ha : getVal a "NUMBER_CERTIFIED_APPLICATIONS" = Value.vint na)
    (hb : getVal b "NUMBER_CERTIFIED_APPLICATIONS" = Value.vint nb)
    (h : comparer [("NUMBER_CERTIFIED_APPLICATIONS", -1), (lbl, 1)] a b ≤ 0) :
    rankBefore lbl a b := by
  rw [comparer_cons, comparer_cons, comparer_nil] at h
  simp only [ha, hb] at h
  rw [rankBefore]
  simp only [rowCount, ha, hb]
  rcases lt_trichotomy na nb with hlt | heq | hgt
  · exfalso
    have hx : cmpV (Value.vint na) (Value.vint nb) = -1 := by
      simp [cmpV, pyCmp, hlt, not_lt_of_gt hlt]
    rw [hx] at h
    norm_num at h
  · subst heq
    have hx : cmpV (Value.vint na) (Value.vint na) = 0 := (cmpV_eq_zero_iff _ _).mpr rfl
    rw [hx] at h
    norm_num at h
    right
    refine ⟨rfl, ?_⟩
    by_cases hy : cmpV (getVal a lbl) (getVal b lbl) = 0
    · exact le_of_eq hy
    · simpa [hy] using h
  · left
    exact hgt

/-! ## C3 -/

/-- C3: for every record set and every `count`, `get_top_occupations`
and `get_top_states` succeed and return at most `count` report rows,
pairwise ordered by certified-application count descending with ties
broken by group label ascending. -/
theorem get_top_at_most_n_sorted (count : Nat)
    (soc_name_fl soc_code_fl cert_fl case_fl work_state_fl : List String)
    (data : List Rec) :
    (∃ hdrs rows,
      get_top_occupations count data soc_name_fl soc_code_fl cert_fl case_fl =
          .ok (hdrs, rows) ∧
        rows.length ≤ count ∧ rows.Pairwise (rankBefore "TOP_OCCUPATIONS")) ∧
      (∃ hdrs rows,
        get_top_states count data work_state_fl cert_fl case_fl = .ok (hdrs, rows) ∧
          rows.length ≤ count ∧ rows.Pairwise (rankBefore "TOP_STATES")) := by
  constructor
  · obtain ⟨g, hg, hshape⟩ := occ_grouped_shape soc_name_fl soc_code_fl cert_fl
      case_fl data
    have hcs : mkComparers ["NUMBER_CERTIFIED_APPLICATIONS", "TOP_OCCUPATIONS"]
        ["Descending", "Ascending"] =
        [("NUMBER_CERTIFIED_APPLICATIONS", -1), ("TOP_OCCUPATIONS", 1)] := by decide
    have hrep : occ_report_unlimited soc_name_fl soc_code_fl cert_fl case_fl data =
        .ok (g.mergeSort (fun x y => decide (comparer
          [("NUMBER_CERTIFIED_APPLICATIONS", -1), ("TOP_OCCUPATIONS", 1)] x y ≤ 0))) := by
      rw [occ_report_unlimited, hg, bind_ok_eq,
        query_load_with_order g ["NUMBER_CERTIFIED_APPLICATIONS", "TOP_OCCUPATIONS"]
          ["Descending", "Ascending"] (by rfl), hcs]
    have hpair : (g.mergeSort (fun x y => decide (comparer
        [("NUMBER_CERTIFIED_APPLICATIONS", -1), ("TOP_OCCUPATIONS", 1)] x y ≤ 0))).Pairwise
        (rankBefore "TOP_OCCUPATIONS") := by
      have hm : ∀ c ∈ [(("NUMBER_CERTIFIED_APPLICATIONS" : String), (-1 : Int)),
          ("TOP_OCCUPATIONS", 1)], c.2 = -1 ∨ c.2 = 1 := by decide
      have hs := List.sorted_mergeSort
        (comparer_trans_bool [("NUMBER_CERTIFIED_APPLICATIONS", -1),
          ("TOP_OCCUPATIONS", 1)] hm) (comparer_total_bool _) g
      refine hs.imp_of_mem ?_
      intro x y hx hy hle
      obtain ⟨nx, hnx⟩ := hshape x (List.mem_mergeSort.mp hx)
      obtain ⟨ny, hny⟩ := hshape y (List.mem_mergeSort.mp hy)
      exact comparer_rank _ x y nx ny hnx hny (by simpa using hle)
    rw [get_top_occupations, hrep, bind_ok_eq, pure_eq_ok]
    exact ⟨_, _, rfl, List.length_take_le _ _,
      hpair.sublist (List.take_sublist _ _)⟩
  · obtain ⟨g, hg, hshape⟩ := st_grouped_shape work_state_fl cert_fl case_fl data
    have hcs : mkComparers ["NUMBER_CERTIFIED_APPLICATIONS", "TOP_STATES"]
        ["Descending", "Ascending"] =
        [("NUMBER_CERTIFIED_APPLICATIONS", -1), ("TOP_STATES", 1)] := by decide
    have hrep : st_report_unlimited work_state_fl cert_fl case_fl data =
        .ok (g.mergeSort (fun x y => decide (comparer
          [("NUMBER_CERTIFIED_APPLICATIONS", -1), ("TOP_STATES", 1)] x y ≤ 0))) := by
      rw [st_report_unlimited, hg, bind_ok_eq,
        query_load_with_order g ["NUMBER_CERTIFIED_APPLICATIONS", "TOP_STATES"]
          ["Descending", "Ascending"] (by rfl), hcs]
    have hpair : (g.mergeSort (fun x y => decide (comparer
        [("NUMBER_CERTIFIED_APPLICATIONS", -1), ("TOP_STATES", 1)] x y ≤ 0))).Pairwise
        (rankBefore "TOP_STATES") := by
      have hm : ∀ c ∈ [(("NUMBER_CERTIFIED_APPLICATIONS" : String), (-1 : Int)),
          ("TOP_STATES", 1)], c.2 = -1 ∨ c.2 = 1 := by decide
      have hs := List.sorted_mergeSort
        (comparer_trans_bool [("NUMBER_CERTIFIED_APPLICATIONS", -1),
          ("TOP_STATES", 1)] hm) (comparer_total_bool _) g
      refine hs.imp_of_mem ?_
      intro x y hx hy hle
      obtain ⟨nx, hnx⟩ := hshape x (List.mem_mergeSort.mp hx)
      obtain ⟨ny, hny⟩ := hshape y (List.mem_mergeSort.mp hy)
      exact comparer_rank _ x y nx ny hnx hny (by simpa using hle)
    rw [get_top_states, hrep, bind_ok_eq, pure_eq_ok]
    exact ⟨_, _, rfl, List.length_take_le _ _,
      hpair.sublist (List.take_sublist _ _)⟩

/-! ## C2 and C9 -/

/-- C2: for every non-empty record set, the sum of the
`NUMBER_CERTIFIED_APPLICATIONS` counts over all rows of the report
produced before truncation to top-N equals the number of records that
passed the certified/non-empty filter, for both the occupations and the
states pipeline. -/
theorem unlimited_report_counts_sum
    (soc_name_fl soc_code_fl cert_fl case_fl work_state_fl : List String)
    (data : List Rec) (hne : data ≠ []) :
    (∃ rows, occ_report_unlimited soc_name_fl soc_code_fl cert_fl case_fl data =
        .ok rows ∧
      (rows.map rowCount).sum =
        (occ_reconcile soc_name_fl soc_code_fl cert_fl case_fl data).countP
          (occFilterPred (soc_name_fl.headD "") (soc_code_fl.headD "")
            (cert_fl.headD ""))) ∧
      (∃ rows, st_report_unlimited work_state_fl cert_fl case_fl data = .ok rows ∧
        (rows.map rowCount).sum =
          (st_reconcile work_state_fl cert_fl case_fl data).countP
            (stFilterPred (work_state_fl.headD "") (cert_fl.headD ""))) :=
  have _h : data ≠ [] := hne
  ⟨occ_report_unlimited_ok soc_name_fl soc_code_fl cert_fl case_fl data,
    st_report_unlimited_ok work_state_fl cert_fl case_fl data⟩

theorem unlimited_report_counts_sum_witness :
    ([recDenied] ≠ ([] : List Rec)) ∧
      (∃ rows, occ_report_unlimited ["soc_name"] ["soc_code"] ["case_status"]
          ["case_number"] [recDenied] = .ok rows ∧
        (rows.map rowCount).sum =
          (occ_reconcile ["soc_name"] ["soc_code"] ["case_status"] ["case_number"]
            [recDenied]).countP
            (occFilterPred (["soc_name"].headD "") (["soc_code"].headD "")
              (["case_status"].headD ""))) ∧
      (∃ rows, st_report_unlimited ["job_info_work_state"] ["case_status"]
          ["case_number"] [recDenied] = .ok rows ∧
        (rows.map rowCount).sum =
          (st_reconcile ["job_info_work_state"] ["case_status"] ["case_number"]
            [recDenied]).countP
            (stFilterPred (["job_info_work_state"].headD "")
              (["case_status"].headD ""))) :=
  ⟨List.cons_ne_nil recDenied [],
    (unlimited_report_counts_sum ["soc_name"] ["soc_code"] ["case_status"]
      ["case_number"] ["job_info_work_state"] [recDenied]
      (List.cons_ne_nil recDenied [])).1,
    (unlimited_report_counts_sum ["soc_name"] ["soc_code"] ["case_status"]
      ["case_number"] ["job_info_work_state"] [recDenied]
      (List.cons_ne_nil recDenied [])).2⟩

/-- C9: a record contributes to a report exactly when its reconciled
status equals `"CERTIFIED"` (case-sensitive, exact) and its group
fields are present and non-empty.  The two filter lambdas accept
precisely those records, and the filtered list whose groups form the
report has exactly as many entries as records satisfying that
predicate. -/
theorem filter_certified_iff
    (soc_name_fl soc_code_fl cert_fl case_fl work_state_fl : List String)
    (data : List Rec) :
    (∀ r : Rec,
      occFilterPred (soc_name_fl.headD "") (soc_code_fl.headD "")
          (cert_fl.headD "") r = true ↔
        (getVal r (cert_fl.headD "") = Value.vstr "CERTIFIED" ∧
          (getVal r (soc_name_fl.headD "") ≠ Value.vnone ∧
            getVal r (soc_name_fl.headD "") ≠ Value.vstr "") ∧
          (getVal r (soc_code_fl.headD "") ≠ Value.vnone ∧
            getVal r (soc_code_fl.headD "") ≠ Value.vstr ""))) ∧
      (∀ r : Rec,
        stFilterPred (work_state_fl.headD "") (cert_fl.headD "") r = true ↔
          (getVal r (cert_fl.headD "") = Value.vstr "CERTIFIED" ∧
            (getVal r (work_state_fl.headD "") ≠ Value.vnone ∧
              getVal r (work_state_fl.headD "") ≠ Value.vstr ""))) ∧
      (∃ F, occ_filtered soc_name_fl soc_code_fl cert_fl case_fl data = .ok F ∧
        F.length = (occ_reconcile soc_name_fl soc_code_fl cert_fl case_fl
          data).countP
          (occFilterPred (soc_name_fl.headD "") (soc_code_fl.headD "")
            (cert_fl.headD ""))) ∧
      (∃ F, st_filtered work_state_fl cert_fl case_fl data = .ok F ∧
        F.length = (st_reconcile work_state_fl cert_fl case_fl data).countP
          (stFilterPred (work_state_fl.headD "") (cert_fl.headD ""))) := by
  refine ⟨?_, ?_, occ_filtered_ok soc_name_fl soc_code_fl cert_fl case_fl data,
    st_filtered_ok work_state_fl cert_fl case_fl data⟩
  · intro r
    simp [occFilterPred]
    tauto
  · intro r
    simp [stFilterPred]
    tauto

/-- C1, as stated, is false: on the dataset `[recDenied]` (one loaded
record, not certified) no record passes the filter, yet both
`get_top_occupations` and `get_top_states` succeed with an empty report
instead of failing with a zero-denominator validation error. -/
theorem zero_filtered_no_error_counterexample :
    ((occ_reconcile ["soc_name"] ["soc_code"] ["case_status"] ["case_number"]
        [recDenied]).filter (occFilterPred "soc_name" "soc_code" "case_status") = []) ∧
      ([recDenied] ≠ ([] : List Rec)) ∧
      get_top_occupations 10 [recDenied] ["soc_name"] ["soc_code"] ["case_status"]
          ["case_number"] =
        .ok (["TOP_OCCUPATIONS", "NUMBER_CERTIFIED_APPLICATIONS", "PERCENTAGE"], []) ∧
      get_top_states 10 [recDenied] ["job_info_work_state"] ["case_status"]
          ["case_number"] =
        .ok (["TOP_STATES", "NUMBER_CERTIFIED_APPLICATIONS", "PERCENTAGE"], []) :=
  ⟨rfl, List.cons_ne_nil recDenied [],
    get_top_occupations_of_filter_nil 10 ["soc_name"] ["soc_code"] ["case_status"]
      ["case_number"] [recDenied] rfl,
    get_top_states_of_filter_nil 10 ["job_info_work_state"] ["case_status"]
      ["case_number"] [recDenied] rfl⟩

/-! ## C4: reconciliation takes the first non-empty value -/

theorem scan_stay {α : Type} (e : α → Bool) (v : α) (hv : e v = false) :
    ∀ l : List α, l.foldl (fun a bv => if e a then bv else a) v = v := by
  intro l
  induction l with
  | nil => rfl
  | cons b t ih => simpa [List.foldl_cons, hv] using ih

theorem scan_find {α : Type} (e : α → Bool) :
    ∀ (l : List α) (v w : α),
      (v :: l).find? (fun u => !e u) = some w →
      l.foldl (fun a bv => if e a then bv else a) v = w
  | [], v, w, h => by
    by_cases hv : e v
    · rw [List.find?_cons_of_neg _ (by simp [hv])] at h
      simp at h
    · rw [List.find?_cons_of_pos _ (by simp [hv])] at h
      simp at h
      subst h
      rfl
  | b :: t, v, w, h => by
    by_cases hv : e v
    · rw [List.find?_cons_of_neg _ (by simp [hv])] at h
      have := scan_find e t b w h
      simpa [List.foldl_cons, hv] using this
    · rw [List.find?_cons_of_pos _ (by simp [hv])] at h
      simp at h
      subst h
      rw [List.foldl_cons, if_neg (by simp [hv])]
      exact scan_stay e v (by simp [hv]) t

theorem reconcile_fold (rest : List String) :
    ∀ (x : Rec) (k0 : String), k0 ∉ rest →
      (∀ k, k ≠ k0 → getVal (rest.foldl (reconcile_step k0) x) k = getVal x k) ∧
      getVal (rest.foldl (reconcile_step k0) x) k0 =
        (rest.map (getVal x)).foldl
          (fun a bv => if isEmptyV a then bv else a) (getVal x k0) := by
  induction rest with
  | nil => exact fun x k0 _ => ⟨fun k _ => rfl, rfl⟩
  | cons ki t ih =>
    intro x k0 hk0
    obtain ⟨hne, hnt⟩ := List.ne_and_not_mem_of_not_mem_cons hk0
    have hx1 : ∀ k, getVal (reconcile_step k0 x ki) k =
        if k = k0 then (if isEmptyV (getVal x k0) then getVal x ki else getVal x k0)
        else getVal x k := by
      intro k
      rw [reconcile_step, getVal_updRec]
    obtain ⟨ihA, ihB⟩ := ih (reconcile_step k0 x ki) k0 hnt
    constructor
    · intro k hk
      rw [List.foldl_cons, ihA k hk, hx1 k, if_neg hk]
    · rw [List.foldl_cons, ihB]
      have hmap : t.map (getVal (reconcile_step k0 x ki)) = t.map (getVal x) :=
        List.map_congr_left (fun k hk => by
          rw [hx1 k, if_neg (fun he : k = k0 => hnt (he ▸ hk))])
      rw [hmap, List.map_cons, List.foldl_cons]
      congr 1
      rw [hx1 k0, if_pos rfl]

theorem occ_fold (pairs : List (String × String)) :
    ∀ (x : Rec) (c0 n0 : String), c0 ≠ n0 →
      (∀ p ∈ pairs, p.1 ≠ c0 ∧ p.1 ≠ n0 ∧ p.2 ≠ c0 ∧ p.2 ≠ n0) →
      (∀ k, k ≠ c0 → k ≠ n0 →
        getVal (pairs.foldl (reconcile_occ_step c0 n0) x) k = getVal x k) ∧
      (getVal (pairs.foldl (reconcile_occ_step c0 n0) x) c0,
        getVal (pairs.foldl (reconcile_occ_step c0 n0) x) n0) =
        (pairs.map (fun p => (getVal x p.1, getVal x p.2))).foldl
          (fun a q => if isEmptyV a.1 then q else a)
          (getVal x c0, getVal x n0) := by
  induction pairs with
  | nil => exact fun x c0 n0 _ _ => ⟨fun k _ _ => rfl, rfl⟩
  | cons p t ih =>
    intro x c0 n0 hcn hkeys
    have hkt : ∀ q ∈ t, q.1 ≠ c0 ∧ q.1 ≠ n0 ∧ q.2 ≠ c0 ∧ q.2 ≠ n0 :=
      fun q hq => hkeys q (List.mem_cons_of_mem p hq)
    have hx1 : ∀ k, k ≠ c0 → k ≠ n0 →
        getVal (reconcile_occ_step c0 n0 x p) k = getVal x k := by
      intro k h1 h2
      rw [reconcile_occ_step]
      by_cases he : isEmptyV (getVal x c0)
      · rw [if_pos he, getVal_updRec, if_neg h2, getVal_updRec, if_neg h1]
      · rw [if_neg he]
    have hx1c : getVal (reconcile_occ_step c0 n0 x p) c0 =
        if isEmptyV (getVal x c0) then getVal x p.1 else getVal x c0 := by
      rw [reconcile_occ_step]
      by_cases he : isEmptyV (getVal x c0)
      · rw [if_pos he, if_pos he, getVal_updRec,
          if_neg hcn, getVal_updRec, if_pos rfl]
      · rw [if_neg he, if_neg he]
    have hx1n : getVal (reconcile_occ_step c0 n0 x p) n0 =
        if isEmptyV (getVal x c0) then getVal x p.2 else getVal x n0 := by
      rw [reconcile_occ_step]
      by_cases he : isEmptyV (getVal x c0)
      · rw [if_pos he, if_pos he, getVal_updRec, if_pos rfl]
      · rw [if_neg he, if_neg he]
    obtain ⟨ihA, ihB⟩ := ih (reconcile_occ_step c0 n0 x p) c0 n0 hcn hkt
    constructor
    · intro k h1 h2
      rw [List.foldl_cons, ihA k h1 h2, hx1 k h1 h2]
    · rw [List.foldl_cons, ihB]
      have hmap : t.map (fun q => (getVal (reconcile_occ_step c0 n0 x p) q.1,
          getVal (reconcile_occ_step c0 n0 x p) q.2)) =
          t.map (fun q => (getVal x q.1, getVal x q.2)) := by
        apply List.map_congr_left
        intro q hq
        obtain ⟨h1, h2, h3, h4⟩ := hkt q hq
        rw [hx1 q.1 h1 h2, hx1 q.2 h3 h4]
      rw [hmap, List.map_cons, List.foldl_cons]
      congr 1
      rw [hx1c, hx1n]
      by_cases he : isEmptyV (getVal x c0)
      · simp [he]
      · simp [he]

/-- C4: for a role resolved to more than one physical column,
reconciliation rewrites only the primary (first) column — every other
column keeps its value — and the primary column ends up holding the
first non-empty value found scanning the resolved columns
left-to-right.  For the joint occupation pass, when the primary code is
empty, the canonical code and the canonical name are both taken from
the same fallback position: the resulting `(code, name)` pair is the
first pair, scanning positions left-to-right, whose code is
non-empty. -/
theorem reconcile_first_nonempty :
    (∀ (k0 : String) (rest : List String) (x : Rec), k0 ∉ rest →
      (∀ k, k ≠ k0 → getVal (reconcile_rec (k0 :: rest) x) k = getVal x k) ∧
      (∀ v, ((k0 :: rest).map (getVal x)).find? (fun u => !isEmptyV u) = some v →
        getVal (reconcile_rec (k0 :: rest) x) k0 = v)) ∧
      (∀ (c0 n0 : String) (crest nrest : List String) (x : Rec),
        c0 ≠ n0 → c0 ∉ crest → c0 ∉ nrest → n0 ∉ crest → n0 ∉ nrest →
        (∀ k, k ≠ c0 → k ≠ n0 →
          getVal (reconcile_occ_rec (n0 :: nrest) (c0 :: crest) x) k = getVal x k) ∧
        (∀ cv nv,
          ((getVal x c0, getVal x n0) :: (crest.zip nrest).map
              (fun p => (getVal x p.1, getVal x p.2))).find?
              (fun q => !isEmptyV q.1) = some (cv, nv) →
            getVal (reconcile_occ_rec (n0 :: nrest) (c0 :: crest) x) c0 = cv ∧
            getVal (reconcile_occ_rec (n0 :: nrest) (c0 :: crest) x) n0 = nv)) := by
  constructor
  · intro k0 rest x hk
    obtain ⟨hA, hB⟩ := reconcile_fold rest x k0 hk
    refine ⟨hA, fun v hv => ?_⟩
    have : reconcile_rec (k0 :: rest) x = rest.foldl (reconcile_step k0) x := rfl
    rw [this, hB]
    exact scan_find isEmptyV (rest.map (getVal x)) (getVal x k0) v
      (by rw [List.map_cons] at hv; exact hv)
  · intro c0 n0 crest nrest x hcn hc1 hc2 hn1 hn2
    have hkeys : ∀ p ∈ crest.zip nrest,
        p.1 ≠ c0 ∧ p.1 ≠ n0 ∧ p.2 ≠ c0 ∧ p.2 ≠ n0 := by
      intro p hp
      obtain ⟨hp1, hp2⟩ := List.of_mem_zip hp
      exact ⟨fun h => hc1 (h ▸ hp1), fun h => hn1 (h ▸ hp1),
        fun h => hc2 (h ▸ hp2), fun h => hn2 (h ▸ hp2)⟩
    obtain ⟨hA, hB⟩ := occ_fold (crest.zip nrest) x c0 n0 hcn hkeys
    have hdef : reconcile_occ_rec (n0 :: nrest) (c0 :: crest) x =
        (crest.zip nrest).foldl (reconcile_occ_step c0 n0) x := rfl
    refine ⟨fun k h1 h2 => by rw [hdef]; exact hA k h1 h2, fun cv nv hv => ?_⟩
    have hscan := scan_find (fun q : Value × Value => isEmptyV q.1)
      ((crest.zip nrest).map (fun p => (getVal x p.1, getVal x p.2)))
      (getVal x c0, getVal x n0) (cv, nv) hv
    rw [hdef]
    have := hB.trans hscan
    exact ⟨congrArg Prod.fst this, congrArg Prod.snd this⟩

theorem reconcile_first_nonempty_witness :
    (("primary_worksite_state" ∉ (["worksite_state"] : List String)) ∧
      getVal (reconcile_rec ["primary_worksite_state", "worksite_state"] stateRecTX)
        "primary_worksite_state" = Value.vstr "TX") ∧
      (getVal (reconcile_occ_rec ["pw_soc_title", "soc_title"]
          ["pw_soc_code", "soc_code"] occRecFallback) "pw_soc_code" =
          Value.vstr "15-1132" ∧
        getVal (reconcile_occ_rec ["pw_soc_title", "soc_title"]
          ["pw_soc_code", "soc_code"] occRecFallback) "pw_soc_title" =
          Value.vstr "Software Developer") :=
  ⟨⟨by decide,
    (reconcile_first_nonempty.1 "primary_worksite_state" ["worksite_state"]
        stateRecTX (by decide)).2 (Value.vstr "TX") (by decide)⟩,
    (reconcile_first_nonempty.2 "pw_soc_code" "pw_soc_title" ["soc_code"]
        ["soc_title"] occRecFallback (by decide) (by decide) (by decide) (by decide)
        (by decide)).2 (Value.vstr "15-1132") (Value.vstr "Software Developer")
      (by decide)⟩

end H1B
